import Mathlib

/-!
Verification of the HKO radar rainfall timeline script (`timeline.py`).

The script fetches a sequence of weather-radar snapshots, classifies each
pixel of a centered 320x400 crop into 16 rain-rate color bands by
per-channel color proximity (tolerance 30), converts per-band pixel counts
to areas in square kilometres, suppresses values below a noise floor, and
plots one series per band against the surviving timestamps.

This file embeds the script shallowly: images are lists of rows of RGBA
pixels, machine integers are `Nat`/`Int` (NumPy promotes the `uint8` pixel
data to a signed wide integer before the subtraction on line 33/41, so the
difference is exact), Python floats are modelled as exact rationals `Rat`,
and the fetch/decode collaborator (`requests` + PIL) is an explicit
outcome taxonomy keyed by the exception class each failure raises, so
that both the caught classes of line 62 and the uncaught `OSError` of
corrupt-but-identified image data are representable.
-/

/-- One RGBA pixel, as produced by `img.convert("RGBA")` followed by
`np.array`: four 8-bit channels.  Channel values are `Nat`; the classifier
only ever reads the first three (`img_array[..., :3]`). -/
structure Pixel where
  r : Nat
  g : Nat
  b : Nat
  a : Nat
deriving DecidableEq, Repr

/-- The ordered band table `colors_to_extract` of `timeline.py` (a Python
dict, which preserves insertion order): rain-rate label to hex color. -/
def colors_to_extract : List (String × String) :=
  [(">300", "#ed00f0"),
   ("200-300", "#c3006a"),
   ("150-200", "#dc0201"),
   ("100-150", "#f00000"),
   ("75-100", "#ed8202"),
   ("50-75", "#eeb000"),
   ("30-50", "#fada04"),
   ("15-30", "#e1cf00"),
   ("10-15", "#8fff00"),
   ("7-10", "#01f908"),
   ("5-7", "#01f808"),
   ("3-5", "#00d002"),
   ("2-3", "#01a835"),
   ("1-2", "#008448"),
   ("0.50-1", "#3b96ff"),
   ("0.15-0.50", "#008ff5")]

/-- Value of one hex digit, as `int(c, 16)` reads it. -/
def hexDigitVal (c : Char) : Nat :=
  if 97 ≤ c.toNat then c.toNat - 87
  else if 65 ≤ c.toNat then c.toNat - 55
  else c.toNat - 48

/-- `int(color[i:i+2], 16)`: the byte at positions `i`, `i+1` of the hex
string. -/
def hexByte (s : String) (i : Nat) : Nat :=
  16 * hexDigitVal (s.data.getD i '0') + hexDigitVal (s.data.getD (i + 1) '0')

/-- `tuple(int(color[i:i+2], 16) for i in (1, 3, 5))`: hex color string to
RGB triple. -/
def hexToRGB (s : String) : Nat × Nat × Nat :=
  (hexByte s 1, hexByte s 3, hexByte s 5)

/-- `colors_to_extract_rgb` of `timeline.py` (line 27): the 16 reference
colors as RGB triples, in band order. -/
def colors_to_extract_rgb : List (Nat × Nat × Nat) :=
  colors_to_extract.map (fun p => hexToRGB p.2)

/-- Exact absolute difference of one channel:
`np.abs(img_array[..., :3] - color_array)` (NumPy promotes `uint8` to a
wide signed integer, so no wraparound occurs). -/
def channelDiff (x c : Nat) : Nat := ((x : Int) - (c : Int)).natAbs

/-- `np.all(diff <= tolerance, axis=-1)` at one pixel: the pixel matches a
reference color iff all three of R, G, B differ by at most `tol`. -/
def pixelMatches (p : Pixel) (c : Nat × Nat × Nat) (tol : Nat) : Bool :=
  decide (channelDiff p.r c.1 ≤ tol) &&
  decide (channelDiff p.g c.2.1 ≤ tol) &&
  decide (channelDiff p.b c.2.2 ≤ tol)

/-- `np.sum(mask)` for one reference color: the number of matching pixels
in the grid. -/
def countForColor (grid : List (List Pixel)) (c : Nat × Nat × Nat) (tol : Nat) : Nat :=
  (grid.map (fun row => (row.filter (fun p => pixelMatches p c tol)).length)).sum

/-- `count_color_pixels` of `timeline.py` (lines 37-44): one count per
reference color, in band order. -/
def count_color_pixels (grid : List (List Pixel)) (colors : List (Nat × Nat × Nat))
    (tol : Nat) : List Nat :=
  colors.map (fun c => countForColor grid c tol)

/-- Outcome of one fetch/decode attempt inside the `try` block of
`process_image` (lines 47-61), by the exception class it raises:
`requests.get`/`raise_for_status` raise a
`requests.exceptions.RequestException` (network error) or its `HTTPError`
subclass (non-success status); `Image.open` raises
`PIL.UnidentifiedImageError` for bytes it cannot identify as an image;
and for corrupt bytes that PIL does identify (e.g. a truncated JPEG with
a valid header), `Image.open` succeeds lazily and the decode forced by
`img.convert("RGBA")` at line 51 raises a plain `OSError` instead.  On
full success the cropped RGBA grid is produced. -/
inductive FetchOutcome where
  | ok : List (List Pixel) → FetchOutcome
  | networkError : FetchOutcome
  | httpStatus : Nat → FetchOutcome
  | unidentifiedImage : FetchOutcome
  | corruptImageData : FetchOutcome
deriving DecidableEq, Repr

/-- An exception that escapes `process_image`: the `except` tuple at line
62 names only `requests.exceptions.RequestException` and
`UnidentifiedImageError`, so the `OSError` raised while decoding
corrupt-but-identified image data is not caught and propagates. -/
inductive UncaughtError where
  | osError : UncaughtError
deriving DecidableEq, Repr

/-- `process_image` of `timeline.py` (lines 46-64), with the external
fetch+decode collaborator abstracted as its `FetchOutcome`: a success is
classified; a `RequestException` (network or HTTP status) or an
`UnidentifiedImageError` is caught by the `except` clause at line 62 and
becomes the sentinel `None`; the `OSError` of corrupt-but-identified
image data matches neither listed class and escapes as an uncaught
exception. -/
def process_image (fetched : FetchOutcome) :
    Except UncaughtError (Option (List Nat)) :=
  match fetched with
  | FetchOutcome.ok img =>
      Except.ok (some (count_color_pixels img colors_to_extract_rgb 30))
  | FetchOutcome.networkError => Except.ok none
  | FetchOutcome.httpStatus _ => Except.ok none
  | FetchOutcome.unidentifiedImage => Except.ok none
  | FetchOutcome.corruptImageData => Except.error UncaughtError.osError

/-- Line 83: `[process_image(url) for url in urls]` - the samples are
processed left to right; an uncaught exception in any one of them aborts
the whole comprehension (and with it `plot_timeline`). -/
def run_samples : List FetchOutcome → Except UncaughtError (List (Option (List Nat)))
  | [] => Except.ok []
  | f :: fs =>
      match process_image f with
      | Except.error e => Except.error e
      | Except.ok r =>
          match run_samples fs with
          | Except.error e => Except.error e
          | Except.ok rs => Except.ok (r :: rs)

/-- The per-sample value `process_image` returns when no exception
escapes: classified counts on success, the `None` sentinel when the
`except` clause fires. -/
def caught_result (f : FetchOutcome) : Option (List Nat) :=
  match f with
  | FetchOutcome.ok img => some (count_color_pixels img colors_to_extract_rgb 30)
  | _ => none

/-- The decoded grid of a successful outcome. -/
def decoded_grid (f : FetchOutcome) : Option (List (List Pixel)) :=
  match f with
  | FetchOutcome.ok img => some img
  | _ => none

/-- Crop box of `process_image` (lines 52-57): Python `/` is exact real
division, modelled in `Rat`; the box is `(left, top, right, bottom)`. -/
def crop_box (width height : Int) : Rat × Rat × Rat × Rat :=
  (((width : Rat) - 320) / 2, ((height : Rat) - 400) / 2,
   ((width : Rat) + 320) / 2, ((height : Rat) + 400) / 2)

/-- The sub-hour minute offsets `intervals` of `plot_timeline` (line 70). -/
def intervals : List Int := [0, 6, 12, 18, 24, 30, 36, 42, 48, 54]

/-- `.replace(minute=0, second=0, microsecond=0)` on a civil time measured
in seconds from an hour-aligned epoch: truncate down to the hour.  `Int`
division is floor division for a positive divisor, matching civil
truncation. -/
def floorHour (t : Int) : Int := t / 3600 * 3600

/-- The timestamp loop of `plot_timeline` (lines 71-77), at one-second
granularity in the fixed UTC+8 offset: for each of the 3 hour offsets,
each interval minute whose instant is `≤ now` is kept, in loop order. -/
def rawTimestamps (now : Int) : List Int :=
  (List.range 3).flatMap (fun hourOffset =>
    (intervals.map (fun minute => floorHour (now - 3600 * hourOffset) + 60 * minute)).filter
      (fun t => decide (t ≤ now)))

/-- `timestamps.sort(reverse=True)` (line 78): sort descending. -/
def timestamps (now : Int) : List Int :=
  (rawTimestamps now).insertionSort (fun a b => a ≥ b)

/-- The minute-of-hour of an instant measured in seconds from an
hour-aligned epoch. -/
def minuteOf (t : Int) : Int := t % 3600 / 60

/-- Zero-padded fixed-width decimal rendering, least significant digit
last: the behavior of `strftime` fields `%Y` (width 4) and
`%m %d %H %M` (width 2) for in-range values. -/
def padDigits : Nat → Nat → List Char
  | 0, _ => []
  | k + 1, n => padDigits k (n / 10) ++ [Nat.digitChar (n % 10)]

/-- A civil timestamp as `strftime("%Y%m%d%H%M")` reads it. -/
structure Timestamp where
  year : Nat
  month : Nat
  day : Nat
  hour : Nat
  minute : Nat
deriving DecidableEq, Repr

/-- The fields a real `datetime` value presents to `strftime`. -/
def ValidTimestamp (t : Timestamp) : Prop :=
  1 ≤ t.year ∧ t.year ≤ 9999 ∧ 1 ≤ t.month ∧ t.month ≤ 12 ∧
  1 ≤ t.day ∧ t.day ≤ 31 ∧ t.hour ≤ 23 ∧ t.minute ≤ 59

/-- `base_url` of `plot_timeline` (line 80). -/
def base_url : String :=
  "https://www.hko.gov.hk/wxinfo/radars/rad_064_png/2d064nradar_"

/-- `timestamp.strftime("%Y%m%d%H%M")` (line 81): year, month, day, hour,
minute, zero-padded, no separators. -/
def strftimeYmdHM (t : Timestamp) : String :=
  String.mk (padDigits 4 t.year ++ padDigits 2 t.month ++ padDigits 2 t.day ++
    padDigits 2 t.hour ++ padDigits 2 t.minute)

/-- The URL builder of `plot_timeline` (line 81):
`base_url + timestamp.strftime("%Y%m%d%H%M") + ".jpg"`. -/
def url_of (t : Timestamp) : String := base_url ++ strftimeYmdHM t ++ ".jpg"

/-- Line 84: `[counts for counts in color_counts_over_time if counts is
not None]` - drop the failure sentinels, keep the count vectors in order. -/
def valid_color_counts (results : List (Option (List Nat))) : List (List Nat) :=
  results.filterMap id

/-- Line 85: `[timestamp for counts, timestamp in zip(...) if counts is
not None]` - the timestamps of the surviving samples, in order. -/
def valid_timestamps (results : List (Option (List Nat))) (ts : List Int) : List Int :=
  ((results.zip ts).filter (fun p => p.1.isSome)).map (fun p => p.2)

/-- The calibration constant `1765.2936237` of line 90, as an exact
rational. -/
def calib : Rat := 17652936237 / 10000000000

/-- Line 90: one raw pixel count divided by the calibration constant. -/
def to_area (x : Rat) : Rat := x / calib

/-- `area_of` applied to a raw pixel count. -/
def area_of (cnt : Nat) : Rat := to_area (cnt : Rat)

/-- Line 91: `value if value >= 0.45 else 0` - noise-floor suppression. -/
def suppress (v : Rat) : Rat := if 0.45 ≤ v then v else 0

/-- `valid_color_counts[:, i]` (line 90) under NumPy semantics: an empty
row list builds a one-dimensional empty array, so column indexing raises
`IndexError` (`none`); otherwise the `i`-th entry of each row. -/
def column (rows : List (List Nat)) (i : Nat) : Option (List Nat) :=
  if rows.isEmpty then none else some (rows.map (fun r => r.getD i 0))

/-- Lines 90-91 for band `i`: the y-values of the band's series, `none`
when the column indexing raises. -/
def area_series (rows : List (List Nat)) (i : Nat) : Option (List Rat) :=
  (column rows i).map (fun col => (col.map area_of).map suppress)

/-! ## Helper lemmas on the classifier -/

/-- Unfolding of the per-pixel match to the three channel conditions. -/
lemma pixelMatches_iff (p : Pixel) (c : Nat × Nat × Nat) (tol : Nat) :
    pixelMatches p c tol = true ↔
      channelDiff p.r c.1 ≤ tol ∧ channelDiff p.g c.2.1 ≤ tol ∧
      channelDiff p.b c.2.2 ≤ tol := by
  simp [pixelMatches, and_assoc]

/-- The per-band count is the number of matching pixels of the flattened
grid. -/
lemma countForColor_eq_flatten (grid : List (List Pixel)) (c : Nat × Nat × Nat)
    (tol : Nat) :
    countForColor grid c tol =
      (grid.flatten.filter (fun p => pixelMatches p c tol)).length := by
  unfold countForColor
  rw [List.filter_flatten, List.length_flatten, List.map_map]
  rfl

/-- Entry `i` of the output vector is the count for reference color `i`. -/
lemma count_color_pixels_getD (grid : List (List Pixel))
    (colors : List (Nat × Nat × Nat)) (tol i : Nat) (h : i < colors.length) :
    (count_color_pixels grid colors tol).getD i 0 =
      countForColor grid (colors.getD i (0, 0, 0)) tol := by
  unfold count_color_pixels
  rw [List.getD_eq_getElem _ _ (by simpa using h), List.getD_eq_getElem _ _ h,
    List.getElem_map]

/-! ## C1: tolerance boundary -/

/-- Claim C1: a pixel is counted in a band's total exactly when its R, G
and B channels each differ from the band's reference color by at most 30;
a difference of exactly 30 in every channel matches, a difference of 31 in
any single channel does not. -/
theorem count_color_pixels_tolerance_boundary :
    (∀ (p : Pixel) (c : Nat × Nat × Nat) (tol : Nat),
        pixelMatches p c tol = true ↔
          channelDiff p.r c.1 ≤ tol ∧ channelDiff p.g c.2.1 ≤ tol ∧
          channelDiff p.b c.2.2 ≤ tol) ∧
    (∀ (grid : List (List Pixel)) (i : Nat), i < colors_to_extract_rgb.length →
        (count_color_pixels grid colors_to_extract_rgb 30).getD i 0 =
          (grid.flatten.filter (fun p =>
            pixelMatches p (colors_to_extract_rgb.getD i (0, 0, 0)) 30)).length) ∧
    (∀ c ∈ colors_to_extract_rgb,
        pixelMatches ⟨c.1 + 30, c.2.1 + 30, c.2.2 + 30, 0⟩ c 30 = true ∧
        pixelMatches ⟨c.1 + 31, c.2.1, c.2.2, 0⟩ c 30 = false ∧
        pixelMatches ⟨c.1, c.2.1 + 31, c.2.2, 0⟩ c 30 = false ∧
        pixelMatches ⟨c.1, c.2.1, c.2.2 + 31, 0⟩ c 30 = false) := by
  refine ⟨pixelMatches_iff, ?_, by decide⟩
  intro grid i h
  rw [count_color_pixels_getD _ _ _ _ h, countForColor_eq_flatten]

/-- Witness for C1 at a concrete grid and band index. -/
theorem count_color_pixels_tolerance_boundary_witness :
    (count_color_pixels [[⟨237, 0, 240, 0⟩]] colors_to_extract_rgb 30).getD 0 0 =
      (([[⟨237, 0, 240, 0⟩]] : List (List Pixel)).flatten.filter (fun p =>
        pixelMatches p (colors_to_extract_rgb.getD 0 (0, 0, 0)) 30)).length :=
  count_color_pixels_tolerance_boundary.2.1 [[⟨237, 0, 240, 0⟩]] 0 (by decide)

/-! ## C2: band independence, inclusive classification -/

/-- Claim C2: each band's count depends only on that band's reference
color; permuting the band list permutes the output counts correspondingly;
and a pixel within tolerance of two bands is counted once in each (the
pixel (1,249,8) matches both the "7-10" and the "5-7" reference colors). -/
theorem count_color_pixels_band_independence :
    (∀ (grid : List (List Pixel)) (colors : List (Nat × Nat × Nat)) (tol i : Nat),
        i < colors.length →
        (count_color_pixels grid colors tol).getD i 0 =
          countForColor grid (colors.getD i (0, 0, 0)) tol) ∧
    (∀ (grid : List (List Pixel)) (colors1 colors2 : List (Nat × Nat × Nat)) (tol : Nat),
        colors1.Perm colors2 →
        (count_color_pixels grid colors1 tol).Perm (count_color_pixels grid colors2 tol)) ∧
    count_color_pixels [[⟨1, 249, 8, 255⟩]] colors_to_extract_rgb 30 =
      [0, 0, 0, 0, 0, 0, 0, 0, 0, 1, 1, 0, 0, 0, 0, 0] := by
  refine ⟨count_color_pixels_getD, ?_, by decide⟩
  intro grid colors1 colors2 tol hperm
  exact hperm.map _

/-- Witness for C2 at a concrete grid and band index. -/
theorem count_color_pixels_band_independence_witness :
    (count_color_pixels [[⟨1, 249, 8, 255⟩]] colors_to_extract_rgb 30).getD 9 0 =
      countForColor [[⟨1, 249, 8, 255⟩]] (colors_to_extract_rgb.getD 9 (0, 0, 0)) 30 :=
  count_color_pixels_band_independence.1 [[⟨1, 249, 8, 255⟩]] colors_to_extract_rgb 30 9
    (by decide)

/-! ## C9: the alpha channel is ignored -/

/-- Two pixels that agree on the three color channels (the alpha channel
is unconstrained). -/
def SameRGB (p q : Pixel) : Prop := p.r = q.r ∧ p.g = q.g ∧ p.b = q.b

/-- The match predicate reads only the R, G, B channels. -/
lemma pixelMatches_congr {p q : Pixel} (h : SameRGB p q) (c : Nat × Nat × Nat)
    (tol : Nat) : pixelMatches p c tol = pixelMatches q c tol := by
  simp [pixelMatches, h.1, h.2.1, h.2.2]

/-- Rows that agree on RGB produce the same per-color match count. -/
lemma filter_length_congr {row1 row2 : List Pixel}
    (h : List.Forall₂ SameRGB row1 row2) (c : Nat × Nat × Nat) (tol : Nat) :
    (row1.filter (fun p => pixelMatches p c tol)).length =
      (row2.filter (fun p => pixelMatches p c tol)).length := by
  induction h with
  | nil => rfl
  | cons hpq htl ih =>
      simp only [List.filter_cons, pixelMatches_congr hpq]
      split <;> simp [ih]

/-- Grids that agree on RGB produce the same per-color count. -/
lemma countForColor_congr {g1 g2 : List (List Pixel)}
    (h : List.Forall₂ (List.Forall₂ SameRGB) g1 g2) (c : Nat × Nat × Nat)
    (tol : Nat) : countForColor g1 c tol = countForColor g2 c tol := by
  induction h with
  | nil => rfl
  | cons hrow htl ih =>
      unfold countForColor at *
      simp [filter_length_congr hrow, ih]

/-- Claim C9: classification ignores the alpha channel - two grids equal
in R, G, B but arbitrary in alpha give identical band-count vectors. -/
theorem count_color_pixels_alpha_ignored (g1 g2 : List (List Pixel))
    (h : List.Forall₂ (List.Forall₂ SameRGB) g1 g2) :
    count_color_pixels g1 colors_to_extract_rgb 30 =
      count_color_pixels g2 colors_to_extract_rgb 30 := by
  unfold count_color_pixels
  exact List.map_congr_left (fun c _ => countForColor_congr h c 30)

/-- Witness for C9: two one-pixel grids differing only in alpha. -/
theorem count_color_pixels_alpha_ignored_witness :
    count_color_pixels [[⟨1, 249, 8, 255⟩]] colors_to_extract_rgb 30 =
      count_color_pixels [[⟨1, 249, 8, 7⟩]] colors_to_extract_rgb 30 :=
  count_color_pixels_alpha_ignored _ _ (by simp [List.forall₂_cons, SameRGB])

/-! ## C3: area conversion and noise floor -/

/-- The suppression of line 91, phrased from the other side of the
boundary. -/
lemma suppress_eq (v : Rat) : suppress v = if v < 0.45 then 0 else v := by
  unfold suppress
  split_ifs with h1 h2 h3
  · exact absurd h2 (not_lt.mpr h1)
  · rfl
  · rfl
  · exact absurd (not_le.mp h1) h3

/-- Suppression distributes over the converted column. -/
lemma map_suppress_eq (X : List Nat) :
    List.map suppress (List.map area_of X) =
      List.map (fun cnt => if area_of cnt < 0.45 then 0 else area_of cnt) X := by
  induction X with
  | nil => rfl
  | cons x xs ih => simp only [List.map_cons, ih, suppress_eq]

/-- Claim C3: each reported area value is the raw pixel count divided by
1765.2936237, except that a quotient strictly below 0.45 becomes exactly
0; a quotient of exactly 0.45 is kept, and an input equal to the constant
itself maps to exactly 1 before suppression. -/
theorem area_conversion_noise_floor :
    (∀ (rows : List (List Nat)) (i : Nat) (ys : List Rat),
        area_series rows i = some ys →
        ys = (rows.map (fun r => r.getD i 0)).map
          (fun cnt => if area_of cnt < 0.45 then 0 else area_of cnt)) ∧
    to_area calib = 1 ∧
    suppress 0.45 = 0.45 ∧
    (∀ v : Rat, v < 0.45 → suppress v = 0) := by
  refine ⟨?_, ?_, ?_, ?_⟩
  · intro rows i ys h
    cases rows with
    | nil => simp [area_series, column] at h
    | cons row rest =>
        simp only [area_series, column, List.isEmpty_cons, Bool.false_eq_true,
          Option.map_some', if_false, Option.some_inj] at h
        rw [← h]
        exact map_suppress_eq _
  · unfold to_area
    exact div_self (by norm_num [calib])
  · norm_num [suppress]
  · intro v hv
    rw [suppress_eq, if_pos hv]

/-- Witness for C3: 0.2 is below the noise floor and is suppressed. -/
theorem area_conversion_noise_floor_witness : suppress (2 / 10) = 0 :=
  area_conversion_noise_floor.2.2.2 (2 / 10) (by norm_num)

/-! ## C8: crop geometry -/

/-- Claim C8: the crop window is the 320x400 box centered in the source
image - origin ((W-320)/2, (H-400)/2), extent 320 by 400; for a 640x800
source it is exactly (160, 200, 480, 600). -/
theorem crop_box_centered :
    (∀ width height : Int,
        (crop_box width height).1 = ((width : Rat) - 320) / 2 ∧
        (crop_box width height).2.1 = ((height : Rat) - 400) / 2 ∧
        (crop_box width height).2.2.1 = (crop_box width height).1 + 320 ∧
        (crop_box width height).2.2.2 = (crop_box width height).2.1 + 400) ∧
    crop_box 640 800 = (160, 200, 480, 600) := by
  constructor
  · intro width height
    refine ⟨rfl, rfl, ?_, ?_⟩ <;>
      · unfold crop_box
        ring
  · norm_num [crop_box]

/-! ## C5: failure filtering preserves order and alignment -/

/-- The surviving timestamps are a subsequence of the original
timestamps: relative order is preserved. -/
lemma valid_timestamps_sublist (results : List (Option (List Nat))) (ts : List Int) :
    (valid_timestamps results ts).Sublist ts := by
  induction results generalizing ts with
  | nil => simp [valid_timestamps]
  | cons r rs ih =>
      cases ts with
      | nil => simp [valid_timestamps]
      | cons t tl =>
          unfold valid_timestamps at *
          rw [List.zip_cons_cons, List.filter_cons]
          rcases hr : r.isSome with _ | _
          · simp only [if_neg Bool.false_ne_true]
            exact (ih tl).cons t
          · simp only [if_pos rfl, List.map_cons]
            exact (ih tl).cons₂ t

/-- With one result per timestamp, the surviving counts and the surviving
timestamps stay aligned one to one. -/
lemma valid_lengths (results : List (Option (List Nat))) (ts : List Int)
    (h : results.length = ts.length) :
    (valid_color_counts results).length = (valid_timestamps results ts).length := by
  induction results generalizing ts with
  | nil => simp [valid_color_counts, valid_timestamps]
  | cons r rs ih =>
      cases ts with
      | nil => simp at h
      | cons t tl =>
          have hlen : rs.length = tl.length := by simpa using h
          unfold valid_color_counts valid_timestamps at *
          rw [List.zip_cons_cons, List.filter_cons]
          cases r with
          | none => simpa using ih tl hlen
          | some c => simpa using ih tl hlen

/-- Claim C5: failed samples are dropped preserving the relative order of
the survivors, each band's series stays aligned one to one with the
surviving timestamps, and in a 3-sample run where only the middle sample
fails every band's series has exactly the two points of samples 1 and 3,
in descending time order. -/
theorem valid_series_alignment :
    (∀ (results : List (Option (List Nat))) (ts : List Int),
        (valid_timestamps results ts).Sublist ts ∧
        (results.length = ts.length →
          (valid_color_counts results).length = (valid_timestamps results ts).length)) ∧
    (∀ (t1 t2 t3 : Int) (c1 c3 : List Nat) (i : Nat),
        t1 > t2 → t2 > t3 →
        valid_timestamps [some c1, none, some c3] [t1, t2, t3] = [t1, t3] ∧
        t1 > t3 ∧
        area_series (valid_color_counts [some c1, none, some c3]) i =
          some [suppress (area_of (c1.getD i 0)), suppress (area_of (c3.getD i 0))]) := by
  constructor
  · intro results ts
    exact ⟨valid_timestamps_sublist results ts, valid_lengths results ts⟩
  · intro t1 t2 t3 c1 c3 i h12 h23
    exact ⟨rfl, lt_trans h23 h12, rfl⟩

/-- Witness for C5: the 3-sample scenario at concrete values. -/
theorem valid_series_alignment_witness :
    valid_timestamps [some [5], none, some [7]] [30, 20, 10] = [30, 10] ∧
    (30 : Int) > 10 ∧
    area_series (valid_color_counts [some [5], none, some [7]]) 0 =
      some [suppress (area_of (([5] : List Nat).getD 0 0)),
            suppress (area_of (([7] : List Nat).getD 0 0))] :=
  valid_series_alignment.2 30 20 10 [5] [7] 0 (by norm_num) (by norm_num)

/-! ## C6: which per-sample failures are swallowed -/

/-- Counterexample to claim C6 as stated: corrupt-but-identified image
bytes do not become the failure marker.  The `OSError` PIL raises when
`img.convert` forces the decode (line 51) is absent from the `except`
tuple at line 62, so `process_image` propagates it and the run aborts
instead of continuing with a shorter series. -/
theorem process_image_corrupt_uncaught :
    process_image FetchOutcome.corruptImageData ≠ Except.ok none ∧
    process_image FetchOutcome.corruptImageData = Except.error UncaughtError.osError ∧
    run_samples [FetchOutcome.corruptImageData] = Except.error UncaughtError.osError :=
  ⟨fun h => Except.noConfusion h, rfl, rfl⟩

/-- A run whose samples all stay inside the caught taxonomy produces the
pointwise sentinel results. -/
lemma run_samples_ok : ∀ outcomes : List FetchOutcome,
    FetchOutcome.corruptImageData ∉ outcomes →
    run_samples outcomes = Except.ok (outcomes.map caught_result) := by
  intro outcomes
  induction outcomes with
  | nil => intro _; rfl
  | cons f fs ih =>
      intro h
      rw [List.mem_cons] at h
      have h1 : FetchOutcome.corruptImageData ≠ f := fun hc => h (Or.inl hc)
      have h2 : FetchOutcome.corruptImageData ∉ fs := fun hc => h (Or.inr hc)
      cases f with
      | corruptImageData => exact absurd rfl h1
      | ok img => simp [run_samples, process_image, caught_result, ih h2]
      | networkError => simp [run_samples, process_image, caught_result, ih h2]
      | httpStatus code => simp [run_samples, process_image, caught_result, ih h2]
      | unidentifiedImage => simp [run_samples, process_image, caught_result, ih h2]

/-- The surviving counts of a caught-only run are exactly the classified
successful grids, in order. -/
lemma valid_caught_result : ∀ outcomes : List FetchOutcome,
    valid_color_counts (outcomes.map caught_result) =
      (outcomes.filterMap decoded_grid).map
        (fun img => count_color_pixels img colors_to_extract_rgb 30) := by
  intro outcomes
  induction outcomes with
  | nil => rfl
  | cons f fs ih =>
      cases f with
      | ok img => simpa [valid_color_counts, caught_result, decoded_grid] using ih
      | networkError => simpa [valid_color_counts, caught_result, decoded_grid] using ih
      | httpStatus code => simpa [valid_color_counts, caught_result, decoded_grid] using ih
      | unidentifiedImage => simpa [valid_color_counts, caught_result, decoded_grid] using ih
      | corruptImageData => simpa [valid_color_counts, caught_result, decoded_grid] using ih

/-- One corrupt sample anywhere aborts the whole comprehension. -/
lemma run_samples_corrupt : ∀ outcomes : List FetchOutcome,
    FetchOutcome.corruptImageData ∈ outcomes →
    run_samples outcomes = Except.error UncaughtError.osError := by
  intro outcomes
  induction outcomes with
  | nil => intro h; cases h
  | cons f fs ih =>
      intro h
      rcases List.mem_cons.mp h with hf | hf
      · rw [← hf]
        simp [run_samples, process_image]
      · cases f with
        | corruptImageData => rfl
        | ok img => simp [run_samples, process_image, ih hf]
        | networkError => simp [run_samples, process_image, ih hf]
        | httpStatus code => simp [run_samples, process_image, ih hf]
        | unidentifiedImage => simp [run_samples, process_image, ih hf]

/-- Claim C6 (amended): per-sample failures of the classes the `except`
clause catches - network errors, non-success HTTP statuses
(`requests.exceptions.RequestException`) and image bytes the decoder
cannot identify (`UnidentifiedImageError`) - yield the failure marker and
are excluded from all downstream series while the run continues, leaving
only a shorter series; but corrupt image bytes that PIL identifies and
then fails to decode raise an uncaught `OSError` that aborts the run. -/
theorem process_image_error_handling :
    (process_image FetchOutcome.networkError = Except.ok none) ∧
    (∀ code, process_image (FetchOutcome.httpStatus code) = Except.ok none) ∧
    (process_image FetchOutcome.unidentifiedImage = Except.ok none) ∧
    (∀ img, process_image (FetchOutcome.ok img) =
        Except.ok (some (count_color_pixels img colors_to_extract_rgb 30))) ∧
    (∀ outcomes : List FetchOutcome, FetchOutcome.corruptImageData ∉ outcomes →
        run_samples outcomes = Except.ok (outcomes.map caught_result) ∧
        valid_color_counts (outcomes.map caught_result) =
          (outcomes.filterMap decoded_grid).map
            (fun img => count_color_pixels img colors_to_extract_rgb 30) ∧
        (valid_color_counts (outcomes.map caught_result)).length ≤ outcomes.length) ∧
    (∀ outcomes : List FetchOutcome, FetchOutcome.corruptImageData ∈ outcomes →
        run_samples outcomes = Except.error UncaughtError.osError) := by
  refine ⟨rfl, fun code => rfl, rfl, fun img => rfl, ?_, run_samples_corrupt⟩
  intro outcomes h
  refine ⟨run_samples_ok outcomes h, valid_caught_result outcomes, ?_⟩
  rw [valid_caught_result]
  calc ((outcomes.filterMap decoded_grid).map
          (fun img => count_color_pixels img colors_to_extract_rgb 30)).length
      = (outcomes.filterMap decoded_grid).length := List.length_map _ _
    _ ≤ outcomes.length := List.length_filterMap_le _ _

/-- Witness for the amended C6 at a concrete caught-only run. -/
theorem process_image_error_handling_witness :
    run_samples [FetchOutcome.networkError, FetchOutcome.unidentifiedImage] =
      Except.ok ([FetchOutcome.networkError, FetchOutcome.unidentifiedImage].map
        caught_result) ∧
    valid_color_counts ([FetchOutcome.networkError, FetchOutcome.unidentifiedImage].map
        caught_result) =
      ([FetchOutcome.networkError, FetchOutcome.unidentifiedImage].filterMap
          decoded_grid).map
        (fun img => count_color_pixels img colors_to_extract_rgb 30) ∧
    (valid_color_counts ([FetchOutcome.networkError,
        FetchOutcome.unidentifiedImage].map caught_result)).length ≤
      [FetchOutcome.networkError, FetchOutcome.unidentifiedImage].length :=
  process_image_error_handling.2.2.2.2.1
    [FetchOutcome.networkError, FetchOutcome.unidentifiedImage] (by decide)

/-! ## C10: the empty-survivor run fails, one success makes it safe -/

/-- If every sample failed, nothing survives the filter. -/
lemma valid_color_counts_all_none (results : List (Option (List Nat)))
    (h : ∀ r ∈ results, r = none) : valid_color_counts results = [] := by
  induction results with
  | nil => rfl
  | cons r rs ih =>
      have hr : r = none := h r (List.mem_cons_self r rs)
      subst hr
      exact ih (fun x hx => h x (List.mem_cons_of_mem _ hx))

/-- One surviving sample makes the survivor list nonempty. -/
lemma valid_color_counts_ne_nil {results : List (Option (List Nat))} {c : List Nat}
    (h : some c ∈ results) : valid_color_counts results ≠ [] := by
  induction results with
  | nil => cases h
  | cons r rs ih =>
      rcases List.mem_cons.mp h with hr | hr
    
      · subst hr
        simp [valid_color_counts]
      · cases r with
        | none => simpa [valid_color_counts] using ih hr
        | some d => simp [valid_color_counts]

/-- Claim C10: when all samples fail, the per-band area extraction indexes
into the empty NumPy array and raises (`none`); with at least one
successful sample that error branch is unreachable. -/
theorem area_series_empty_failure :
    (∀ results : List (Option (List Nat)), (∀ r ∈ results, r = none) →
        ∀ i, area_series (valid_color_counts results) i = none) ∧
    (∀ (results : List (Option (List Nat))) (c : List Nat), some c ∈ results →
        ∀ i, (area_series (valid_color_counts results) i).isSome = true) := by
  constructor
  · intro results h i
    rw [valid_color_counts_all_none results h]
    rfl
  · intro results c h i
    rcases hne : valid_color_counts results with _ | ⟨row, rest⟩
    · exact absurd hne (valid_color_counts_ne_nil h)
    · rfl

/-- Witness for C10: a two-sample all-failed run raises, a run with one
success does not. -/
theorem area_series_empty_failure_witness :
    area_series (valid_color_counts [none, none]) 0 = none :=
  area_series_empty_failure.1 [none, none] (by decide) 0

/-! ## C4: timestamp generation -/

/-- The 30 candidate offsets, in seconds, of the generated instants
relative to the floor of the current hour. -/
def offsetList : List Int :=
  (List.range 3).flatMap (fun k => intervals.map (fun m => 60 * m - 3600 * k))

/-- Truncating to the hour commutes with stepping back whole hours. -/
lemma floorHour_sub (n : Int) (k : Nat) :
    floorHour (n - 3600 * k) = floorHour n - 3600 * k := by
  unfold floorHour
  have h2 : n - 3600 * (k : Int) = n + -(k : Int) * 3600 := by ring
  rw [h2, Int.add_mul_ediv_right _ _ (by norm_num : (3600 : Int) ≠ 0)]
  ring

/-- The generated pre-sort list is the filtered translate of the fixed
offset list. -/
lemma rawTimestamps_eq (n : Int) :
    rawTimestamps n =
      (offsetList.map (fun o => floorHour n + o)).filter (fun t => decide (t ≤ n)) := by
  unfold rawTimestamps offsetList
  rw [List.map_flatMap, List.filter_flatMap]
  unfold List.flatMap
  congr 1
  apply List.map_congr_left
  intro k _
  rw [List.map_map]
  have hmaps : intervals.map (fun m => floorHour (n - 3600 * k) + 60 * m) =
      intervals.map ((fun o => floorHour n + o) ∘ fun m => 60 * m - 3600 * k) := by
    apply List.map_congr_left
    intro m _
    show floorHour (n - 3600 * k) + 60 * m = floorHour n + (60 * m - 3600 * k)
    rw [floorHour_sub n k]
    ring
  rw [hmaps]

/-- The offsets are pairwise distinct. -/
lemma offsetList_nodup : offsetList.Nodup := by decide

/-- The pre-sort list has no duplicates. -/
lemma rawTimestamps_nodup (n : Int) : (rawTimestamps n).Nodup := by
  rw [rawTimestamps_eq]
  exact ((offsetList_nodup.map (add_right_injective (floorHour n))).filter _)

/-- The sorted list has no duplicates either. -/
lemma timestamps_nodup (n : Int) : (timestamps n).Nodup :=
  (List.perm_insertionSort (fun a b => a ≥ b) (rawTimestamps n)).symm.nodup
    (rawTimestamps_nodup n)

/-- Membership in the output characterized by the offset list. -/
lemma mem_timestamps {n t : Int} :
    t ∈ timestamps n ↔ (∃ o ∈ offsetList, floorHour n + o = t) ∧ t ≤ n := by
  unfold timestamps
  rw [List.mem_insertionSort, rawTimestamps_eq]
  simp [List.mem_filter, List.mem_map]

/-- Claim C4: for every fixed current instant the generated timestamp
sequence is strictly descending and duplicate-free, every entry is at most
`now`, lies in the trailing 3-hour window, and its minute-of-hour is one
of the ten configured offsets. -/
theorem timestamps_descending_aligned (now : Int) :
    (timestamps now).Sorted (fun a b => a > b) ∧
    (timestamps now).Nodup ∧
    ∀ t ∈ timestamps now,
      t ≤ now ∧ now - 10800 < t ∧ minuteOf t ∈ intervals := by
  refine ⟨?_, timestamps_nodup now, ?_⟩
  · exact (List.sorted_insertionSort _ _).gt_of_ge (timestamps_nodup now)
  · intro t ht
    obtain ⟨⟨o, ho, hto⟩, hle⟩ := mem_timestamps.mp ht
    have hall : ∀ o ∈ offsetList, -7200 ≤ o ∧ o % 3600 / 60 ∈ intervals := by decide
    have hob := hall o ho
    refine ⟨hle, ?_, ?_⟩
    · have hfh : floorHour now = now / 3600 * 3600 := rfl
      have hemod := Int.ediv_add_emod now 3600
      have hlt := Int.emod_lt_of_pos now (by norm_num : (0 : Int) < 3600)
      omega
    · have hsplit : t = o + 3600 * (now / 3600) := by
        rw [← hto]
        unfold floorHour
        ring
      unfold minuteOf
      rw [hsplit, Int.add_mul_emod_self_left]
      exact hob.2

/-- Witness for C4 at the concrete instant 7500 s (02:05:00 civil time)
and the entry 7200 s (02:00:00). -/
theorem timestamps_descending_aligned_witness :
    (7200 : Int) ≤ 7500 ∧ (7500 : Int) - 10800 < 7200 ∧ minuteOf 7200 ∈ intervals :=
  (timestamps_descending_aligned 7500).2.2 7200 (by decide)

/-! ## C7: URL building -/

/-- `padDigits` always renders exactly `k` characters. -/
lemma padDigits_length (k : Nat) : ∀ n, (padDigits k n).length = k := by
  induction k with
  | zero => intro n; rfl
  | succ k ih => intro n; simp [padDigits, ih]

/-- The code of a decimal digit character. -/
lemma digitChar_toNat : ∀ d < 10, (Nat.digitChar d).toNat = 48 + d := by decide

/-- Recover the numeric value of a digit block. -/
def digitsVal (l : List Char) : Nat :=
  l.foldl (fun acc c => 10 * acc + (c.toNat - 48)) 0

/-- Folding the digit recovery over a padded block. -/
lemma foldl_padDigits (k : Nat) : ∀ n acc,
    List.foldl (fun acc c => 10 * acc + (c.toNat - 48)) acc (padDigits k n) =
      acc * 10 ^ k + n % 10 ^ k := by
  induction k with
  | zero => intro n acc; simp [padDigits, Nat.mod_one]
  | succ k ih =>
      intro n acc
      rw [padDigits, List.foldl_append, ih]
      show 10 * (acc * 10 ^ k + n / 10 % 10 ^ k) + ((Nat.digitChar (n % 10)).toNat - 48) =
        acc * 10 ^ (k + 1) + n % 10 ^ (k + 1)
      rw [digitChar_toNat (n % 10) (Nat.mod_lt n (by norm_num)), Nat.add_sub_cancel_left,
        pow_succ']
      rw [Nat.mod_mul]
      ring

/-- A padded block determines its value below `10 ^ k`. -/
lemma padDigits_inj {k a b : Nat} (ha : a < 10 ^ k) (hb : b < 10 ^ k)
    (h : padDigits k a = padDigits k b) : a = b := by
  have hv := congrArg digitsVal h
  unfold digitsVal at hv
  rw [foldl_padDigits, foldl_padDigits, Nat.mod_eq_of_lt ha, Nat.mod_eq_of_lt hb] at hv
  simpa using hv

/-- `String.mk` carries its character list. -/
lemma data_mk (l : List Char) : (String.mk l).data = l := rfl

/-- Peeling one fixed-width block off two equal digit strings. -/
lemma peel_block {k a b : Nat} {r1 r2 : List Char}
    (h : padDigits k a ++ r1 = padDigits k b ++ r2) :
    padDigits k a = padDigits k b ∧ r1 = r2 :=
  List.append_inj h (by rw [padDigits_length, padDigits_length])

/-- Claim C7: URL building is a pure, total, injective function of the
timestamp: zero-padded year, month, day, hour, minute concatenated between
the fixed base path and the fixed ".jpg" suffix; 2024-03-01T12:30 maps to
the documented URL. -/
theorem url_of_injective_format :
    (∀ t1 t2 : Timestamp, ValidTimestamp t1 → ValidTimestamp t2 →
        url_of t1 = url_of t2 → t1 = t2) ∧
    url_of ⟨2024, 3, 1, 12, 30⟩ =
      "https://www.hko.gov.hk/wxinfo/radars/rad_064_png/2d064nradar_202403011230.jpg" := by
  constructor
  · intro t1 t2 hv1 hv2 h
    obtain ⟨y1, mo1, d1, hh1, mi1⟩ := t1
    obtain ⟨y2, mo2, d2, hh2, mi2⟩ := t2
    obtain ⟨hy1a, hy1b, hmo1a, hmo1b, hd1a, hd1b, hh1b, hmi1b⟩ := hv1
    obtain ⟨hy2a, hy2b, hmo2a, hmo2b, hd2a, hd2b, hh2b, hmi2b⟩ := hv2
    have hdata := congrArg String.data h
    simp only [url_of, strftimeYmdHM, String.data_append, data_mk,
      List.append_assoc] at hdata
    have hblocks := List.append_cancel_left hdata
    obtain ⟨hy, hrest⟩ := peel_block hblocks
    obtain ⟨hmo, hrest2⟩ := peel_block hrest
    obtain ⟨hd, hrest3⟩ := peel_block hrest2
    obtain ⟨hh, hrest4⟩ := peel_block hrest3
    obtain ⟨hmi, _⟩ := peel_block hrest4
    have ey : y1 = y2 := padDigits_inj
      (lt_of_le_of_lt hy1b (by norm_num)) (lt_of_le_of_lt hy2b (by norm_num)) hy
    have emo : mo1 = mo2 := padDigits_inj
      (lt_of_le_of_lt hmo1b (by norm_num)) (lt_of_le_of_lt hmo2b (by norm_num)) hmo
    have ed : d1 = d2 := padDigits_inj
      (lt_of_le_of_lt hd1b (by norm_num)) (lt_of_le_of_lt hd2b (by norm_num)) hd
    have eh : hh1 = hh2 := padDigits_inj
      (lt_of_le_of_lt hh1b (by norm_num)) (lt_of_le_of_lt hh2b (by norm_num)) hh
    have emi : mi1 = mi2 := padDigits_inj
      (lt_of_le_of_lt hmi1b (by norm_num)) (lt_of_le_of_lt hmi2b (by norm_num)) hmi
    rw [ey, emo, ed, eh, emi]
  · decide

/-- Witness for C7 at a concrete pair of timestamps. -/
theorem url_of_injective_format_witness :
    (⟨2024, 3, 1, 12, 30⟩ : Timestamp) = ⟨2024, 3, 1, 12, 30⟩ :=
  url_of_injective_format.1 ⟨2024, 3, 1, 12, 30⟩ ⟨2024, 3, 1, 12, 30⟩
    (by refine ⟨?_, ?_, ?_, ?_, ?_, ?_, ?_, ?_⟩ <;> norm_num)
    (by refine ⟨?_, ?_, ?_, ?_, ?_, ?_, ?_, ?_⟩ <;> norm_num)
    rfl
